import Mathlib

/-!
Verification of the Kairos daily-planning core (planner, load model,
bankruptcy resolver, analytics feed) as a shallow embedding of the
TypeScript sources.

Conventions used throughout the embedding:
* JavaScript numbers holding integral data (ids, minutes, scores,
  energies) are modelled as `Int`; fractional wall-clock arithmetic and
  the `0.8` / `1.1` constants are modelled exactly over `Rat`.
* The JavaScript `x || d` default idiom on numeric fields is modelled by
  `jsOr`: it yields the default both when the field is absent and when it
  is `0` (the only falsy integral value arising here).
* Wall-clock instants are minutes since local midnight.
-/

/-- JS `x || d` on an optional integer field: `undefined`/`null` and the
falsy value `0` both fall back to the default. -/
def jsOr (x : Option Int) (d : Int) : Int :=
  match x with
  | none => d
  | some v => if v = 0 then d else v

/-- JS `s || d` on an optional string field: `undefined`/`null` and the
falsy empty string both fall back to the default. -/
def jsOrStr (x : Option String) (d : String) : String :=
  match x with
  | none => d
  | some s => if s = "" then d else s

/-- JS `Math.round`: round half towards positive infinity. -/
def jsRound (q : ℚ) : ℤ := ⌊q + 1/2⌋

/-- A pending task enriched with its parent goal context, as consumed by
`PlannerService.prioritizeTasks` / `formatSchedule` (interface
`TaskWithGoal` in the source). -/
structure TaskWithGoal where
  id : Int
  title : String
  estimatedMinutes : Option Int
  priorityOverride : Option Int
  isFixed : Bool
  requiredEnergy : Option Int
  goalTitle : Option String
  goalMetaScore : Option Int
deriving DecidableEq, Repr

/-- Energy fit `(5 - Math.abs(userEnergy - (t.requiredEnergy || 3))) * 2`. -/
def energyFit (userEnergy : Int) (t : TaskWithGoal) : Int :=
  (5 - |userEnergy - jsOr t.requiredEnergy 3|) * 2

/-- Composite score `(t.goalMetaScore || 0) + fit`. -/
def compositeScore (userEnergy : Int) (t : TaskWithGoal) : Int :=
  jsOr t.goalMetaScore 0 + energyFit userEnergy t

/-- The comparator passed to `tasks.sort` in
`PlannerService.prioritizeTasks`: fixed tasks first, then composite
score descending, then `priorityOverride` descending. -/
def taskCmp (userEnergy : Int) (a b : TaskWithGoal) : Int :=
  if a.isFixed && !b.isFixed then -1
  else if !a.isFixed && b.isFixed then 1
  else if compositeScore userEnergy b - compositeScore userEnergy a ≠ 0 then
    compositeScore userEnergy b - compositeScore userEnergy a
  else jsOr b.priorityOverride 3 - jsOr a.priorityOverride 3

/-- `PlannerService.prioritizeTasks`.  ECMAScript `Array.prototype.sort`
is required to be stable and, for a consistent comparator such as
`taskCmp`, every stable sort produces the same output; we model it with
the stable `List.insertionSort` over the relation `taskCmp e a b ≤ 0`. -/
def prioritizeTasks (tasks : List TaskWithGoal) (userEnergy : Int) : List TaskWithGoal :=
  List.insertionSort (fun a b => taskCmp userEnergy a b ≤ 0) tasks

/-- Sort key realising `taskCmp` as a lexicographic order: fixed rank
(0 for fixed, 1 for movable), negated composite score, negated priority
override. -/
def sortKey (userEnergy : Int) (t : TaskWithGoal) : Int × Int × Int :=
  (if t.isFixed then 0 else 1, -(compositeScore userEnergy t), -(jsOr t.priorityOverride 3))

/-- Lexicographic `≤` on triples of integers. -/
def keyLe (x y : Int × Int × Int) : Prop :=
  x.1 < y.1 ∨ (x.1 = y.1 ∧ (x.2.1 < y.2.1 ∨ (x.2.1 = y.2.1 ∧ x.2.2 ≤ y.2.2)))

theorem keyLe_refl (x : Int × Int × Int) : keyLe x x := by
  unfold keyLe; omega

theorem keyLe_total (x y : Int × Int × Int) : keyLe x y ∨ keyLe y x := by
  unfold keyLe; omega

theorem keyLe_trans {x y z : Int × Int × Int} (h₁ : keyLe x y) (h₂ : keyLe y z) :
    keyLe x z := by
  unfold keyLe at *; omega

theorem keyLe_antisymm {x y : Int × Int × Int} (h₁ : keyLe x y) (h₂ : keyLe y x) :
    x = y := by
  unfold keyLe at *
  obtain ⟨a, b, c⟩ := x
  obtain ⟨d, e, f⟩ := y
  simp only [Prod.mk.injEq] at *
  omega

theorem taskCmp_le_iff (e : Int) (a b : TaskWithGoal) :
    taskCmp e a b ≤ 0 ↔ keyLe (sortKey e a) (sortKey e b) := by
  unfold taskCmp sortKey keyLe
  cases ha : a.isFixed <;> cases hb : b.isFixed <;> simp <;> split_ifs <;> omega

theorem taskCmp_pos_key_ne (e : Int) (a b : TaskWithGoal)
    (h : ¬ taskCmp e a b ≤ 0) : sortKey e a ≠ sortKey e b := by
  intro hk
  exact h ((taskCmp_le_iff e a b).mpr (hk ▸ keyLe_refl (sortKey e a)))

theorem taskCmp_le_total (e : Int) (a b : TaskWithGoal) :
    taskCmp e a b ≤ 0 ∨ taskCmp e b a ≤ 0 := by
  rcases keyLe_total (sortKey e a) (sortKey e b) with h | h
  · exact Or.inl ((taskCmp_le_iff e a b).mpr h)
  · exact Or.inr ((taskCmp_le_iff e b a).mpr h)

theorem taskCmp_le_trans {e : Int} {a b c : TaskWithGoal}
    (h₁ : taskCmp e a b ≤ 0) (h₂ : taskCmp e b c ≤ 0) : taskCmp e a c ≤ 0 :=
  (taskCmp_le_iff e a c).mpr
    (keyLe_trans ((taskCmp_le_iff e a b).mp h₁) ((taskCmp_le_iff e b c).mp h₂))

theorem taskCmp_le_of_same_fixed {e : Int} {a b : TaskWithGoal}
    (hfix : a.isFixed = b.isFixed) (h : taskCmp e a b ≤ 0) :
    compositeScore e b ≤ compositeScore e a ∧
      (compositeScore e a = compositeScore e b →
        jsOr b.priorityOverride 3 ≤ jsOr a.priorityOverride 3) := by
  unfold taskCmp at h
  cases hb : b.isFixed <;> rw [hb] at hfix <;> rw [hfix, hb] at h <;>
    simp only [Bool.not_false, Bool.not_true, Bool.and_false, Bool.false_and,
      Bool.and_self, if_false, Bool.false_eq_true, if_neg, ite_false] at h <;>
    split_ifs at h <;> constructor <;> omega

theorem fixed_of_taskCmp_le {e : Int} {a b : TaskWithGoal}
    (h : taskCmp e a b ≤ 0) (hb : b.isFixed = true) : a.isFixed = true := by
  by_contra ha
  rw [Bool.not_eq_true] at ha
  simp [taskCmp, ha, hb] at h

theorem sorted_prioritizeTasks (tasks : List TaskWithGoal) (e : Int) :
    List.Sorted (fun a b => taskCmp e a b ≤ 0) (prioritizeTasks tasks e) := by
  haveI : IsTotal TaskWithGoal (fun a b => taskCmp e a b ≤ 0) :=
    ⟨fun a b => taskCmp_le_total e a b⟩
  haveI : IsTrans TaskWithGoal (fun a b => taskCmp e a b ≤ 0) :=
    ⟨fun _ _ _ h₁ h₂ => taskCmp_le_trans h₁ h₂⟩
  exact List.sorted_insertionSort _ tasks

theorem filter_orderedInsert_sortKey (e : Int) (k : Int × Int × Int)
    (x : TaskWithGoal) : ∀ l : List TaskWithGoal,
    (List.orderedInsert (fun a b => taskCmp e a b ≤ 0) x l).filter
        (fun t => decide (sortKey e t = k)) =
      (if sortKey e x = k then [x] else []) ++
        l.filter (fun t => decide (sortKey e t = k)) := by
  intro l
  induction l with
  | nil => simp [List.orderedInsert]; split_ifs <;> simp_all
  | cons y ys ih =>
    simp only [List.orderedInsert]
    by_cases h : taskCmp e x y ≤ 0
    · rw [if_pos h]
      simp only [List.filter_cons]
      split_ifs <;> simp_all
    · rw [if_neg h]
      have hne : sortKey e x ≠ sortKey e y := taskCmp_pos_key_ne e x y h
      simp only [List.filter_cons]
      by_cases hy : sortKey e y = k
      · have hx : sortKey e x ≠ k := fun hxx => hne (hxx.trans hy.symm)
        simp [hy, hx, ih]
      · by_cases hx : sortKey e x = k <;> simp [hy, hx, ih]

theorem filter_prioritizeTasks_sortKey (e : Int) (k : Int × Int × Int) :
    ∀ tasks : List TaskWithGoal,
    (prioritizeTasks tasks e).filter (fun t => decide (sortKey e t = k)) =
      tasks.filter (fun t => decide (sortKey e t = k)) := by
  intro tasks
  unfold prioritizeTasks
  induction tasks with
  | nil => rfl
  | cons a l ih =>
    simp only [List.insertionSort]
    rw [filter_orderedInsert_sortKey, ih, List.filter_cons]
    split_ifs <;> simp_all

/-- The ordering-and-stability property of `prioritizeTasks` asserted by
the spec: within every pair of equally-fixed tasks of the output, the
composite score is non-increasing, ties are ordered by non-increasing
`priorityOverride` (default 3), and tasks equal on the whole sort key
keep their relative input order. -/
def PrioritizeOrderedStable (tasks : List TaskWithGoal) (e : Int) : Prop :=
  (∀ i j : Fin (prioritizeTasks tasks e).length, i < j →
      ((prioritizeTasks tasks e).get i).isFixed =
        ((prioritizeTasks tasks e).get j).isFixed →
      compositeScore e ((prioritizeTasks tasks e).get j) ≤
          compositeScore e ((prioritizeTasks tasks e).get i) ∧
        (compositeScore e ((prioritizeTasks tasks e).get i) =
            compositeScore e ((prioritizeTasks tasks e).get j) →
          jsOr ((prioritizeTasks tasks e).get j).priorityOverride 3 ≤
            jsOr ((prioritizeTasks tasks e).get i).priorityOverride 3))
  ∧ ∀ k : Int × Int × Int,
      (prioritizeTasks tasks e).filter (fun t => decide (sortKey e t = k)) =
        tasks.filter (fun t => decide (sortKey e t = k))

/-- C1: for every task list and every userEnergy in 1..5, within each
equal-`isFixed` block the output of `prioritizeTasks` is ordered by
non-increasing composite score
`(goalMetaScore or 0) + (5 - |userEnergy - requiredEnergy|) * 2`, ties
are ordered by non-increasing `priorityOverride` (default 3), and tasks
equal on both keys retain their relative input order (stable sort). -/
theorem prioritizeTasks_ordered_stable (tasks : List TaskWithGoal) (e : Int)
    (he : 1 ≤ e ∧ e ≤ 5) : PrioritizeOrderedStable tasks e := by
  constructor
  · intro i j hij hfix
    exact taskCmp_le_of_same_fixed hfix
      ((sorted_prioritizeTasks tasks e).rel_get_of_lt hij)
  · intro k
    exact filter_prioritizeTasks_sortKey e k tasks

/-- The fixed-precedence property asserted by the spec: no non-fixed task
ever precedes a fixed one in the prioritized output, and the head of the
output is fixed iff some input task is fixed. -/
def FixedPrecedence (tasks : List TaskWithGoal) (e : Int) : Prop :=
  (∀ i j : Fin (prioritizeTasks tasks e).length, i < j →
      ((prioritizeTasks tasks e).get j).isFixed = true →
      ((prioritizeTasks tasks e).get i).isFixed = true)
  ∧ ∃ t, (prioritizeTasks tasks e).head? = some t ∧
      (t.isFixed = true ↔ ∃ u ∈ tasks, u.isFixed = true)

theorem perm_prioritizeTasks (tasks : List TaskWithGoal) (e : Int) :
    List.Perm (prioritizeTasks tasks e) tasks :=
  List.perm_insertionSort _ tasks

/-- C2: in the output of `prioritizeTasks` every fixed task appears
strictly before every non-fixed task; for non-empty input the first task
of the prioritized order is fixed iff at least one fixed task exists. -/
theorem prioritizeTasks_fixed_first (tasks : List TaskWithGoal) (e : Int)
    (hne : tasks ≠ []) : FixedPrecedence tasks e := by
  have hfst : ∀ i j : Fin (prioritizeTasks tasks e).length, i < j →
      ((prioritizeTasks tasks e).get j).isFixed = true →
      ((prioritizeTasks tasks e).get i).isFixed = true := by
    intro i j hij hj
    exact fixed_of_taskCmp_le
      ((sorted_prioritizeTasks tasks e).rel_get_of_lt hij) hj
  refine ⟨hfst, ?_⟩
  have hperm := perm_prioritizeTasks tasks e
  have hlen : prioritizeTasks tasks e ≠ [] := by
    intro h
    exact hne ((h ▸ hperm).symm.eq_nil)
  obtain ⟨t, rest, hout⟩ := List.exists_cons_of_ne_nil hlen
  refine ⟨t, by rw [hout]; rfl, ?_⟩
  constructor
  · intro ht
    exact ⟨t, hperm.mem_iff.mp (hout ▸ List.mem_cons_self t rest), ht⟩
  · rintro ⟨u, hu, hufix⟩
    have humem : u ∈ prioritizeTasks tasks e := hperm.mem_iff.mpr hu
    obtain ⟨j, hj⟩ := List.mem_iff_get.mp humem
    have h0 : (0 : ℕ) < (prioritizeTasks tasks e).length := by
      rw [hout]; exact Nat.succ_pos _
    have hget0 : (prioritizeTasks tasks e).get ⟨0, h0⟩ = t := by
      simp [hout]
    by_cases hj0 : (j : ℕ) = 0
    · have hjt : (prioritizeTasks tasks e).get j = t := by
        rw [← hget0]
        congr 1
        exact Fin.ext hj0
      rw [← hj, hjt] at hufix
      exact hufix
    · have hlt : (⟨0, h0⟩ : Fin (prioritizeTasks tasks e).length) < j :=
        Nat.pos_of_ne_zero hj0
      have := hfst ⟨0, h0⟩ j hlt (hj ▸ hufix)
      rw [hget0] at this
      exact this

/-- A fixed sample task used by concrete witnesses. -/
def sampleFixedTask : TaskWithGoal :=
  ⟨1, "standup", some 15, some 2, true, some 2, some "work", some 4⟩

/-- A movable sample task used by concrete witnesses. -/
def sampleMovableTask : TaskWithGoal :=
  ⟨2, "deep work", some 90, some 4, false, some 5, some "thesis", some 9⟩

theorem prioritizeTasks_ordered_stable_witness :
    (1 ≤ (3 : Int) ∧ (3 : Int) ≤ 5) ∧
      PrioritizeOrderedStable [sampleFixedTask, sampleMovableTask] 3 :=
  ⟨by decide,
    prioritizeTasks_ordered_stable [sampleFixedTask, sampleMovableTask] 3 (by decide)⟩

theorem prioritizeTasks_fixed_first_witness :
    ([sampleMovableTask, sampleFixedTask] ≠ ([] : List TaskWithGoal)) ∧
      FixedPrecedence [sampleMovableTask, sampleFixedTask] 3 :=
  ⟨by decide,
    prioritizeTasks_fixed_first [sampleMovableTask, sampleFixedTask] 3 (by decide)⟩

/-- A user's work window, as read by `PlannerService.calculateDailyLoad`
(`user.workEndTime` is the string `HH:MM`; we carry the two parsed
components produced by `split(':').map(Number)`). -/
structure User where
  id : Int
  workEndHour : Int
  workEndMinute : Int
  currentEnergy : Int
deriving DecidableEq, Repr

/-- A JS number that is either finite (here always rational) or the IEEE
`Infinity` produced by `demand / 0` handling in the source. -/
inductive RatioVal where
  | fin (q : ℚ)
  | inf
deriving DecidableEq, Repr

/-- `LoadStatus` DTO of the source. -/
structure LoadStatus where
  capacityMinutes : Int
  demandMinutes : Int
  isOverloaded : Bool
  overloadRatio : RatioVal
deriving DecidableEq, Repr

/-- `PlannerService.calculateDailyLoad`.  `nowMinutes` is the wall clock
"now" in (possibly fractional) minutes since local midnight;
`demandMinutes` is `taskRepo.sumPendingEstimatedMinutes(userId)`.  The
source computes `remainingMinutes = (workEndTime - now) / 60000` in
minutes, clamps negatives to `0`, and takes
`capacityMinutes = Math.floor(remainingMinutes * 0.8)`. -/
def calculateDailyLoad (user : Option User) (nowMinutes : ℚ)
    (demandMinutes : Int) : Except String LoadStatus :=
  match user with
  | none => .error "User not found"
  | some u =>
    let remainingRaw : ℚ := ((u.workEndHour * 60 + u.workEndMinute : Int) : ℚ) - nowMinutes
    let remainingMinutes : ℚ := if remainingRaw < 0 then 0 else remainingRaw
    let capacityMinutes : Int := ⌊remainingMinutes * (4/5 : ℚ)⌋
    .ok
      { capacityMinutes := capacityMinutes
        demandMinutes := demandMinutes
        isOverloaded := decide (capacityMinutes < demandMinutes)
        overloadRatio :=
          if 0 < capacityMinutes then .fin ((demandMinutes : ℚ) / (capacityMinutes : ℚ))
          else if 0 < demandMinutes then .inf
          else .fin 0 }

/-- C3: for every existing user the capacity is
`floor(max(0, workEnd - now) * 0.8)`; with exactly 60 minutes remaining
and demand 120 the result is capacity 48, overloaded, ratio 5/2. -/
theorem calculateDailyLoad_capacity (u : User) (nowMinutes : ℚ)
    (demandMinutes : Int) :
    ∃ ls : LoadStatus,
      calculateDailyLoad (some u) nowMinutes demandMinutes = .ok ls ∧
      ls.capacityMinutes =
        ⌊max 0 (((u.workEndHour * 60 + u.workEndMinute : Int) : ℚ) - nowMinutes) * (4/5 : ℚ)⌋ ∧
      ((((u.workEndHour * 60 + u.workEndMinute : Int) : ℚ) - nowMinutes = 60) →
        demandMinutes = 120 →
        ls.capacityMinutes = 48 ∧ ls.isOverloaded = true ∧
          ls.overloadRatio = .fin (5/2)) := by
  refine ⟨_, rfl, ?_, ?_⟩
  · simp only
    congr 1
    rcases le_or_lt 0 (((u.workEndHour * 60 + u.workEndMinute : Int) : ℚ) - nowMinutes) with h | h
    · rw [if_neg (not_lt.mpr h), max_eq_right h]
    · rw [if_pos h, max_eq_left h.le]
  · intro hrem hdem
    have hcap : (⌊(if (((u.workEndHour * 60 + u.workEndMinute : Int) : ℚ) - nowMinutes) < 0 then (0:ℚ)
        else (((u.workEndHour * 60 + u.workEndMinute : Int) : ℚ) - nowMinutes)) * (4/5 : ℚ)⌋ : Int) = 48 := by
      rw [hrem]
      norm_num
    refine ⟨hcap, ?_, ?_⟩
    · simp only [hcap, hdem]
      norm_num
    · simp only [hcap, hdem]
      norm_num

/-- Sample user (work end 17:00) used by concrete witnesses. -/
def sampleUser : User := ⟨1, 17, 0, 3⟩

theorem calculateDailyLoad_capacity_witness :
    ∃ ls : LoadStatus,
      calculateDailyLoad (some sampleUser) 960 120 = .ok ls ∧
      ls.capacityMinutes = 48 ∧ ls.isOverloaded = true ∧
      ls.overloadRatio = .fin (5/2) := by
  obtain ⟨ls, hok, _, hspec⟩ := calculateDailyLoad_capacity sampleUser 960 120
  obtain ⟨h1, h2, h3⟩ := hspec (by norm_num [sampleUser]) rfl
  exact ⟨ls, hok, h1, h2, h3⟩

/-- C4: every `LoadStatus` produced by `calculateDailyLoad` satisfies the
overload invariant and the three-case definition of `overloadRatio`. -/
theorem calculateDailyLoad_invariant (user : Option User) (nowMinutes : ℚ)
    (demandMinutes : Int) (ls : LoadStatus)
    (h : calculateDailyLoad user nowMinutes demandMinutes = .ok ls) :
    (ls.isOverloaded = true ↔ ls.capacityMinutes < ls.demandMinutes) ∧
      (0 < ls.capacityMinutes →
        ls.overloadRatio = .fin ((ls.demandMinutes : ℚ) / (ls.capacityMinutes : ℚ))) ∧
      (ls.capacityMinutes = 0 → 0 < ls.demandMinutes → ls.overloadRatio = .inf) ∧
      (ls.capacityMinutes = 0 → ls.demandMinutes = 0 → ls.overloadRatio = .fin 0) := by
  cases user with
  | none => simp [calculateDailyLoad] at h
  | some u =>
    simp only [calculateDailyLoad] at h
    injection h with h
    subst h
    refine ⟨by simp, ?_, ?_, ?_⟩
    · intro hpos
      simp only at hpos ⊢
      rw [if_pos hpos]
    · intro hz hdem
      simp only at hz hdem ⊢
      rw [if_neg (by omega), if_pos hdem]
    · intro hz hdem
      simp only at hz hdem ⊢
      rw [if_neg (by omega), if_neg (by omega)]

theorem calculateDailyLoad_invariant_witness :
    (calculateDailyLoad (some sampleUser) 960 120 =
        .ok ⟨48, 120, true, .fin (5/2)⟩) ∧
      ((true = true ↔ (48 : Int) < 120) ∧
        ((0 : Int) < 48 →
          RatioVal.fin (5/2) = .fin ((120 : ℚ) / (48 : ℚ))) ∧
        ((48 : Int) = 0 → (0 : Int) < 120 → RatioVal.fin (5/2) = .inf) ∧
        ((48 : Int) = 0 → (120 : Int) = 0 → RatioVal.fin (5/2) = .fin 0)) := by
  have hok : calculateDailyLoad (some sampleUser) 960 120 =
      .ok ⟨48, 120, true, .fin (5/2)⟩ := by
    simp only [calculateDailyLoad, sampleUser]
    norm_num
  exact ⟨hok, calculateDailyLoad_invariant (some sampleUser) 960 120 _ hok⟩

/-- A row of the `goals` table (fields used by the bankruptcy SQL). -/
structure GoalRow where
  id : Int
  userId : Int
  metaScore : Int
deriving DecidableEq, Repr

/-- A row of the `tasks` table (fields used by the bankruptcy SQL). -/
structure TaskRow where
  id : Int
  userId : Int
  goalId : Int
  status : String
  isFixed : Bool
  scheduledStartTime : Option Int
deriving DecidableEq, Repr

/-- The relational store as seen by `TaskRepository`. -/
structure DB where
  tasks : List TaskRow
  goals : List GoalRow
deriving DecidableEq, Repr

/-- Row selected by the `JOIN goals` / `WHERE` clause of
`TaskRepository.archiveLowPriorityTasks`: owned, pending, and joined to a
goal with `meta_score < threshold`. -/
def hardEligible (goals : List GoalRow) (userId threshold : Int)
    (t : TaskRow) : Bool :=
  t.userId == userId && t.status == "pending" &&
    goals.any (fun g => g.id == t.goalId && g.metaScore < threshold)

/-- `TaskRepository.archiveLowPriorityTasks`: one bulk `UPDATE` setting
`status = 'archived'` on all eligible rows; returns the updated state and
the SQL row count (number of matched rows). -/
def archiveLowPriorityTasks (db : DB) (userId threshold : Int) : DB × Int :=
  (⟨db.tasks.map fun t =>
      if hardEligible db.goals userId threshold t then
        { t with status := "archived" } else t,
    db.goals⟩,
   ((db.tasks.filter (hardEligible db.goals userId threshold)).length : Int))

/-- Row matched by the `WHERE` clause of
`TaskRepository.rescheduleTasksToTomorrow`: owned, pending, not fixed. -/
def softEligible (userId : Int) (t : TaskRow) : Bool :=
  t.userId == userId && t.status == "pending" && t.isFixed == false

/-- `TaskRepository.rescheduleTasksToTomorrow`: one bulk `UPDATE` setting
`scheduled_start_time = NULL` on all matched rows; the SQL row count
counts matched rows whether or not the column actually changes. -/
def rescheduleTasksToTomorrow (db : DB) (userId : Int) : DB × Int :=
  (⟨db.tasks.map fun t =>
      if softEligible userId t then { t with scheduledStartTime := none } else t,
    db.goals⟩,
   ((db.tasks.filter (softEligible userId)).length : Int))

/-- Trace of repository mutations issued by `executeBankruptcy`. -/
inductive RepoCall where
  | archiveCall (userId threshold : Int)
  | rescheduleCall (userId : Int)
deriving DecidableEq, Repr

/-- `PlannerService.executeBankruptcy`: strategy dispatch on the
`BankruptcyOption` string enum, returning the updated store, the
user-facing message, and the list of repository calls made. -/
def executeBankruptcy (db : DB) (userId : Int) (option : String) :
    DB × String × List RepoCall :=
  if option = "HARD" then
    let r := archiveLowPriorityTasks db userId 5
    (r.1,
     "🔥 **Liquidación Total**: Se han archivado " ++ toString r.2 ++
       " tareas de baja prioridad.",
     [.archiveCall userId 5])
  else if option = "SOFT" then
    let r := rescheduleTasksToTomorrow db userId
    (r.1,
     "🍃 **Reajuste Suave**: Se han movido " ++ toString r.2 ++
       " tareas a la cola general (sin hora fija).",
     [.rescheduleCall userId])
  else if option = "MANUAL" then
    (db, "🛠 **Manual**: Usa /done [id] o /archive [id] para eliminar tareas específicas.", [])
  else
    (db, "Opción desconocida.", [])

/-- C6: HARD bankruptcy archives exactly the pending tasks whose parent
goal has `metaScore < 5`, leaves everything else unchanged, issues the
single repository call `(userId, 5)`, and the returned message embeds the
archived count. -/
theorem executeBankruptcy_hard (db : DB) (userId : Int) :
    (executeBankruptcy db userId "HARD").1.goals = db.goals ∧
      (executeBankruptcy db userId "HARD").1.tasks =
        (db.tasks.map fun t =>
          if t.userId == userId && t.status == "pending" &&
              db.goals.any (fun g => g.id == t.goalId && g.metaScore < 5) then
            { t with status := "archived" } else t) ∧
      (executeBankruptcy db userId "HARD").2.2 = [RepoCall.archiveCall userId 5] ∧
      ∃ pre post, (executeBankruptcy db userId "HARD").2.1 =
        pre ++ toString
          ((db.tasks.filter fun t =>
            t.userId == userId && t.status == "pending" &&
              db.goals.any (fun g => g.id == t.goalId && g.metaScore < 5)).length : Int)
          ++ post := by
  refine ⟨rfl, rfl, rfl,
    ⟨"🔥 **Liquidación Total**: Se han archivado ",
     " tareas de baja prioridad.", rfl⟩⟩

theorem map_eq_self_of_mem {α : Type} (f : α → α) (l : List α)
    (h : ∀ a ∈ l, f a = a) : l.map f = l := by
  induction l with
  | nil => rfl
  | cons a l ih => rw [List.map_cons, h a (List.mem_cons_self a l), ih
      fun b hb => h b (List.mem_cons_of_mem a hb)]

theorem hardEligible_after_archive (goals : List GoalRow) (uid th : Int)
    (t : TaskRow) :
    hardEligible goals uid th
      (if hardEligible goals uid th t then { t with status := "archived" }
       else t) = false := by
  by_cases h : hardEligible goals uid th t
  · rw [if_pos h]
    simp [hardEligible]
  · rw [if_neg h]
    simpa using h

theorem softEligible_clear (uid : Int) (t : TaskRow) :
    softEligible uid { t with scheduledStartTime := none } =
      softEligible uid t := rfl

theorem softEligible_after_clear (uid : Int) (t : TaskRow) :
    softEligible uid
      (if softEligible uid t then { t with scheduledStartTime := none }
       else t) = softEligible uid t := by
  by_cases h : softEligible uid t
  · rw [if_pos h]
    rfl
  · rw [if_neg h]

theorem hard_second_run (db : DB) (uid : Int) :
    archiveLowPriorityTasks (archiveLowPriorityTasks db uid 5).1 uid 5 =
      ((archiveLowPriorityTasks db uid 5).1, 0) := by
  unfold archiveLowPriorityTasks
  simp only
  have hall : ∀ t ∈ db.tasks.map fun t =>
      if hardEligible db.goals uid 5 t then { t with status := "archived" }
      else t, hardEligible db.goals uid 5 t = false := by
    intro t ht
    obtain ⟨s, _, rfl⟩ := List.mem_map.mp ht
    exact hardEligible_after_archive db.goals uid 5 s
  simp only [Prod.mk.injEq, DB.mk.injEq]
  refine ⟨⟨?_, trivial⟩, ?_⟩
  · exact map_eq_self_of_mem _ _ fun t ht => if_neg (by simp [hall t ht])
  · rw [List.filter_eq_nil_iff.mpr fun t ht => by simp [hall t ht]]
    rfl

theorem soft_second_run (db : DB) (uid : Int) :
    rescheduleTasksToTomorrow (rescheduleTasksToTomorrow db uid).1 uid =
      ((rescheduleTasksToTomorrow db uid).1,
        (rescheduleTasksToTomorrow db uid).2) := by
  unfold rescheduleTasksToTomorrow
  simp only
  simp only [Prod.mk.injEq, DB.mk.injEq]
  refine ⟨⟨?_, trivial⟩, ?_⟩
  · rw [List.map_map]
    refine List.map_congr_left fun t _ => ?_
    simp only [Function.comp_apply]
    by_cases h : softEligible uid t
    · simp [h, softEligible_clear]
    · simp [h]
  · congr 1
    rw [← List.countP_eq_length_filter, ← List.countP_eq_length_filter,
      List.countP_map]
    exact List.countP_congr fun t _ => by
      simp [Function.comp, softEligible_after_clear]

/-- Concrete store with one pending, non-fixed, scheduled task, used to
refute the literal idempotence claim for SOFT bankruptcy. -/
def retryDb : DB := ⟨[⟨1, 1, 1, "pending", false, some 540⟩], [⟨1, 1, 8⟩]⟩

/-- C7 counterexample: immediately re-running SOFT bankruptcy does NOT
report an affected count of 0 — the same pending non-fixed row is matched
again (count 1), even though the state is unchanged. -/
theorem executeBankruptcy_soft_retry_counterexample :
    (rescheduleTasksToTomorrow (executeBankruptcy retryDb 1 "SOFT").1 1).2 = 1 ∧
      ¬ (rescheduleTasksToTomorrow (executeBankruptcy retryDb 1 "SOFT").1 1).2 = 0 ∧
      (executeBankruptcy (executeBankruptcy retryDb 1 "SOFT").1 1 "SOFT").2.1 =
        "🍃 **Reajuste Suave**: Se han movido 1 tareas a la cola general (sin hora fija)." :=
  ⟨rfl, by decide, rfl⟩

/-- C7 (amended): re-running HARD or SOFT bankruptcy leaves the store
unchanged; the second HARD run finds zero eligible rows, while the second
SOFT run matches the same pending non-fixed rows again and reports the
first run's count (not 0 in general). -/
theorem executeBankruptcy_retry (db : DB) (uid : Int) :
    (executeBankruptcy (executeBankruptcy db uid "HARD").1 uid "HARD").1 =
        (executeBankruptcy db uid "HARD").1 ∧
      (archiveLowPriorityTasks (executeBankruptcy db uid "HARD").1 uid 5).2 = 0 ∧
      (executeBankruptcy (executeBankruptcy db uid "SOFT").1 uid "SOFT").1 =
        (executeBankruptcy db uid "SOFT").1 ∧
      (rescheduleTasksToTomorrow (executeBankruptcy db uid "SOFT").1 uid).2 =
        (rescheduleTasksToTomorrow db uid).2 := by
  have hH := hard_second_run db uid
  have hS := soft_second_run db uid
  have e1 : ∀ d : DB, (executeBankruptcy d uid "HARD").1 =
      (archiveLowPriorityTasks d uid 5).1 := fun d => rfl
  have e2 : ∀ d : DB, (executeBankruptcy d uid "SOFT").1 =
      (rescheduleTasksToTomorrow d uid).1 := fun d => rfl
  refine ⟨?_, ?_, ?_, ?_⟩
  · rw [e1, e1, hH]
  · rw [e1, hH]
  · rw [e2, e2, hS]
  · rw [e2, hS]

/-- C10: any option outside the `BankruptcyOption` enumeration hits the
`default` branch: fixed unknown-option message, no repository call, store
untouched. -/
theorem executeBankruptcy_unknown (db : DB) (uid : Int) (opt : String)
    (h1 : opt ≠ "HARD") (h2 : opt ≠ "SOFT") (h3 : opt ≠ "MANUAL") :
    executeBankruptcy db uid opt = (db, "Opción desconocida.", []) := by
  unfold executeBankruptcy
  rw [if_neg h1, if_neg h2, if_neg h3]

theorem executeBankruptcy_unknown_witness :
    (("RESET" : String) ≠ "HARD" ∧ ("RESET" : String) ≠ "SOFT" ∧
        ("RESET" : String) ≠ "MANUAL") ∧
      executeBankruptcy ⟨[], []⟩ 1 "RESET" = (⟨[], []⟩, "Opción desconocida.", []) :=
  ⟨⟨by decide, by decide, by decide⟩,
    executeBankruptcy_unknown ⟨[], []⟩ 1 "RESET" (by decide) (by decide) (by decide)⟩

/-- Two-digit zero padding used for clock rendering. -/
def pad2 (n : Nat) : String := if n < 10 then "0" ++ toString n else toString n

/-- `toLocaleTimeString([], hour and minute 2-digit)` modelled as a 24h
`HH:MM` clock over minutes since midnight. -/
def fmtClock (m : Nat) : String := pad2 (m / 60 % 24) ++ ":" ++ pad2 (m % 60)

/-- The per-task loop of `PlannerService.formatSchedule`: returns the
accumulated block text, the final cursor, and the total minutes. -/
def formatBlocks : Nat → List TaskWithGoal → String × Nat × Nat
  | cur, [] => ("", cur, 0)
  | cur, t :: ts =>
    let duration := (jsOr t.estimatedMinutes 30).toNat
    let endTime := cur + duration
    let icon := match t.goalMetaScore with
      | some v => if v ≥ 8 then "🌟" else if v ≥ 5 then "🎯" else "📝"
      | none => "📝"
    let block :=
      "⏰ *" ++ fmtClock cur ++ " - " ++ fmtClock endTime ++ "* (" ++
        toString duration ++ "m)\n" ++
      icon ++ " *[#" ++ toString t.id ++ "] " ++ t.title ++ "*\n" ++
      "   └ 🔗 Meta: _" ++ jsOrStr t.goalTitle "Sin Asignar" ++ "_\n\n"
    let rest := formatBlocks endTime ts
    (block ++ rest.1, rest.2.1, duration + rest.2.2)

/-- `PlannerService.formatSchedule` (header, time blocks, summary). -/
def formatSchedule (tasks : List TaskWithGoal) (nowMinutes : Nat) : String :=
  let r := formatBlocks nowMinutes tasks
  "📅 *Plan Optimizado* (Generado: " ++ fmtClock nowMinutes ++ ")\n\n" ++
    r.1 ++
    "🏁 *Hora estimada de finalización:* " ++ fmtClock r.2.1 ++ "\n" ++
    "⏱️ *Carga Total:* " ++ toString (r.2.2 / 60) ++ "h " ++
    toString (r.2.2 % 60) ++ "m"

/-- `PlannerService.generateDailyPlan`, instrumented with two flags
recording whether `prioritizeTasks` and `formatSchedule` were invoked. -/
def generateDailyPlan (tasks : List TaskWithGoal) (userEnergy : Int)
    (nowMinutes : Nat) : String × Bool × Bool :=
  if tasks.length = 0 then
    ("🎉 ¡No tienes tareas pendientes! Disfruta tu día libre.", false, false)
  else
    (formatSchedule (prioritizeTasks tasks userEnergy) nowMinutes, true, true)

/-- C8: with an empty pending-task set, `generateDailyPlan` returns the
fixed "no pending tasks" message and invokes neither the prioritizer nor
the schedule formatter. -/
theorem generateDailyPlan_empty (userEnergy : Int) (nowMinutes : Nat) :
    generateDailyPlan [] userEnergy nowMinutes =
      ("🎉 ¡No tienes tareas pendientes! Disfruta tu día libre.",
        false, false) := rfl

/-- `TelegramService.checkAndTriggerBankruptcy`, modelled as a pure
function of the computed `LoadStatus` and the weekly-stats velocity.  The
result records which alerts end up in a sent message: first component =
the "reality check" warning was surfaced, second = the three-option
bankruptcy prompt was surfaced.  The source builds `msg` by appending the
warning when `velocity > 0 && demand > velocity * 1.1`, sends
`msg ++ prompt` when overloaded, and sends `msg` alone when non-empty. -/
def checkAndTriggerBankruptcy (load : LoadStatus) (velocity : Int) : Bool × Bool :=
  let realityCheck : Bool :=
    decide (0 < velocity) &&
      decide ((velocity : ℚ) * (11/10) < ((load.demandMinutes : Int) : ℚ))
  if load.isOverloaded then (realityCheck, true)
  else if realityCheck then (true, false)
  else (false, false)

/-- C9 counterexample: with velocity 0 and demand 100 the claimed
condition `demand > velocity * 1.1` holds, yet the source's
`velocity > 0` guard suppresses the reality-check warning. -/
theorem checkAndTrigger_zero_velocity_counterexample :
    ((0 : ℚ) * (11/10) < ((100 : Int) : ℚ)) ∧
      (checkAndTriggerBankruptcy ⟨200, 100, false, .fin (1/2)⟩ 0).1 = false := by
  constructor
  · norm_num
  · rfl

/-- C9 (amended): the reality-check warning is surfaced iff
`velocity > 0` AND `demand > velocity * 1.1`; the bankruptcy prompt is
surfaced iff `isOverloaded`; both can co-occur (witnessed at demand 100,
capacity 10, velocity 7). -/
theorem checkAndTrigger_surfacing (load : LoadStatus) (velocity : Int) :
    ((checkAndTriggerBankruptcy load velocity).1 = true ↔
        0 < velocity ∧ (velocity : ℚ) * (11/10) < ((load.demandMinutes : Int) : ℚ)) ∧
      ((checkAndTriggerBankruptcy load velocity).2 = true ↔
        load.isOverloaded = true) ∧
      ((checkAndTriggerBankruptcy ⟨10, 100, true, .fin 10⟩ 7).1 = true ∧
        (checkAndTriggerBankruptcy ⟨10, 100, true, .fin 10⟩ 7).2 = true) := by
  refine ⟨?_, ?_, ?_, ?_⟩
  · unfold checkAndTriggerBankruptcy
    by_cases ho : load.isOverloaded <;>
      by_cases hr : (0 < velocity ∧
        (velocity : ℚ) * (11/10) < ((load.demandMinutes : Int) : ℚ)) <;>
      simp [ho, decide_eq_true_eq, hr]
  · unfold checkAndTriggerBankruptcy
    by_cases ho : load.isOverloaded <;> simp [ho] <;> split_ifs <;> simp_all
  · show (checkAndTriggerBankruptcy ⟨10, 100, true, .fin 10⟩ 7).1 = true
    unfold checkAndTriggerBankruptcy
    norm_num
  · rfl

/-- A completed task row as returned by
`TaskRepository.getCompletedTasks` (fields used by the analytics feed). -/
structure CompletedTask where
  estimatedMinutes : Option Int
  goalMetaScore : Int
deriving DecidableEq, Repr

/-- The `AnalyticsStats` DTO. -/
structure AnalyticsStats where
  velocity : Int
  impactScore : Int
  streak : Int
deriving DecidableEq, Repr

/-- `AnalyticsService.getWeeklyStats` (the version consumed by the
Telegram bot): velocity and impact over the 7-day window of completed
tasks; the `streak` field is hard-coded to `0` ("mocked for V1"). -/
def getWeeklyStats (completedTasks : List CompletedTask) : AnalyticsStats :=
  let totalMinutes := completedTasks.foldl (fun s t => s + jsOr t.estimatedMinutes 30) 0
  let velocity := jsRound ((totalMinutes : ℚ) / 7)
  let highImpactCount := (completedTasks.filter fun t => t.goalMetaScore ≥ 7).length
  let totalTasks := completedTasks.length
  let impactScore :=
    if 0 < totalTasks then jsRound (((highImpactCount : Int) : ℚ) / ((totalTasks : Int) : ℚ) * 100)
    else 0
  ⟨velocity, impactScore, 0⟩

/-- The effective counting loop of `AnalyticsService.calculateStreak`
(the dashboard version): walk the DESC-ordered distinct completion days,
incrementing while each next day is exactly one before the previous. -/
def streakLoop : Int → List Int → Int → Int
  | _, [], acc => acc
  | prev, d :: rest, acc =>
    if prev - d = 1 then streakLoop d rest (acc + 1) else acc

/-- `AnalyticsService.calculateStreak`: completion dates are the distinct
calendar days (as day numbers, DESC) from
`TaskRepository.getCompletionDates`; `today` is the current calendar day.
The source's first counting loop is dead code — its result is overwritten
by the `streak = 1` reassignment before the refined loop — so only the
refined loop is modelled. -/
def calculateStreak (completionDates : List Int) (today : Int) : Int :=
  match completionDates with
  | [] => 0
  | lastDate :: rest =>
    if lastDate < today - 1 then 0
    else streakLoop lastDate rest 1

/-- Spec-side description of the streak count: the length of the maximal
prefix of the DESC day list in which every step decreases by exactly one
calendar day. -/
def consecutiveRun : List Int → Int
  | [] => 0
  | [_] => 1
  | a :: b :: rest => if a - b = 1 then 1 + consecutiveRun (b :: rest) else 1

/-- Spec-side streak ("count of consecutive calendar days ending today or
yesterday with at least one completed task"): 0 when the most recent
completion day is older than yesterday, else the consecutive prefix run. -/
def specStreak (completionDates : List Int) (today : Int) : Int :=
  match completionDates with
  | [] => 0
  | mostRecent :: _ =>
    if mostRecent < today - 1 then 0 else consecutiveRun completionDates

theorem streakLoop_eq_run (rest : List Int) :
    ∀ prev acc, streakLoop prev rest acc = acc + consecutiveRun (prev :: rest) - 1 := by
  induction rest with
  | nil => intro prev acc; simp [streakLoop, consecutiveRun]
  | cons d ds ih =>
    intro prev acc
    show (if prev - d = 1 then streakLoop d ds (acc + 1) else acc) = _
    have hrun : consecutiveRun (prev :: d :: ds) =
        if prev - d = 1 then 1 + consecutiveRun (d :: ds) else 1 := by
      simp [consecutiveRun]
    by_cases h : prev - d = 1
    · rw [if_pos h, ih d (acc + 1), hrun, if_pos h]
      omega
    · rw [if_neg h, hrun, if_neg h]
      omega

/-- C5 counterexample: the weekly-stats operation consumed by the bot
returns `streak = 0` unconditionally (the source comments it as mocked
for V1), even when the completion history [today, yesterday,
day-before-yesterday] would give the described count 3 (as
`calculateStreak` does, here with day numbers 100, 99, 98). -/
theorem weeklyStats_streak_counterexample :
    (getWeeklyStats [⟨some 30, 8⟩, ⟨some 30, 8⟩, ⟨some 30, 8⟩]).streak = 0 ∧
      calculateStreak [100, 99, 98] 100 = 3 ∧ (0 : Int) ≠ 3 :=
  ⟨rfl, by decide, by decide⟩

/-- C5 (amended): `getWeeklyStats` always returns `streak = 0`; the
consecutive-day logic described by the spec is implemented by
`calculateStreak` (dashboard version), which agrees with the spec-side
`specStreak` on every input and yields 3 on
[today, yesterday, day-before-yesterday]. -/
theorem calculateStreak_spec (cts : List CompletedTask)
    (dates : List Int) (today : Int) :
    (getWeeklyStats cts).streak = 0 ∧
      calculateStreak dates today = specStreak dates today ∧
      calculateStreak [today, today - 1, today - 2] today = 3 := by
  refine ⟨rfl, ?_, ?_⟩
  · cases dates with
    | nil => rfl
    | cons lastDate rest =>
      show (if lastDate < today - 1 then 0 else streakLoop lastDate rest 1) =
        specStreak (lastDate :: rest) today
      simp only [specStreak]
      by_cases h : lastDate < today - 1
      · rw [if_pos h, if_pos h]
      · rw [if_neg h, if_neg h, streakLoop_eq_run rest lastDate 1]
        omega
  · show (if today < today - 1 then 0
      else streakLoop today [today - 1, today - 2] 1) = 3
    rw [if_neg (by omega)]
    simp only [streakLoop]
    split_ifs <;> omega
